import Mathlib

/-!
Verification of the zoekt sourcegraph indexserver supervisor
(package wipindexserver plus the earlier main-package variant).

The Go code is shallowly embedded: external collaborators (the build
library, the upstream catalog client, the child indexer) are abstracted
as environment records whose fields record their possible outcomes, and
observable side effects are collected into explicit effect lists.
-/

namespace Zoekt

/-- indexState, the result classification returned by Server.Index. -/
inductive indexState where
  | fail
  | success
  | successMeta
  | noop
  | empty
deriving DecidableEq, Repr

/-- The string value of each indexState constant in the source. -/
def indexState.toStr : indexState → String
  | .fail => "fail"
  | .success => "success"
  | .successMeta => "success_meta"
  | .noop => "noop"
  | .empty => "empty"

/-- build.IndexState values consumed by Server.Index: Equal, Meta,
Corrupt, and a catch-all for every other value of the build library. -/
inductive BuildState where
  | equal
  | metaOnly
  | corrupt
  | other
deriving DecidableEq, Repr

/-- zoekt.RepositoryBranch: a branch name plus commit version. -/
structure RepositoryBranch where
  Name : String
  Version : String
deriving DecidableEq, Repr

/-- zoekt.Repository restricted to the field the supervisor writes. -/
structure Repository where
  Branches : List RepositoryBranch
deriving DecidableEq, Repr

/-- build.Options restricted to the field the supervisor writes. -/
structure BuildOptions where
  RepositoryDescription : Repository
deriving DecidableEq, Repr

/-- IndexOptions: the upstream description of how to index one repo,
restricted to the fields the supervisor reads. -/
structure IndexOptions where
  RepoID : Nat
  Name : String
  Branches : List RepositoryBranch
deriving DecidableEq, Repr

/-- IndexArgs as built by Server.indexArgs. -/
structure IndexArgs where
  Name : String
  RepoID : Nat
  Branches : List RepositoryBranch
  IndexDir : String
  Parallelism : Nat
  Incremental : Bool
  FileLimit : Nat
  DownloadLimitMBPS : String
deriving DecidableEq, Repr

/-- Server.indexArgs: build IndexArgs from IndexOptions plus server
defaults (1 MiB file limit, 1 Gbps download cap, Incremental=true). -/
def Server.indexArgs (indexDir : String) (cpuCount : Nat) (opts : IndexOptions) : IndexArgs :=
  { Name := opts.Name
    RepoID := opts.RepoID
    Branches := opts.Branches
    IndexDir := indexDir
    Parallelism := cpuCount
    Incremental := true
    FileLimit := 1 <<< 20
    DownloadLimitMBPS := "1000" }

/-- Observable side effects of one Server.Index call. -/
inductive Effect where
  | consultState
  | callMergeMeta
  | runIndexer
  | newBuilder
  | writeShard (bs : List RepositoryBranch)
deriving DecidableEq, Repr

/-- Environment for Server.Index: the outcomes of the calls it makes
into the build library and the child indexer. -/
structure IndexEnv where
  baseBuild : BuildOptions
  skipIndexing : Bool
  newBuilderErr : Option String
  finishErr : Option String
  incrementalState : BuildState
  mergeMetaErr : Option String
  gitIndexErr : Option String

/-- The synthetic branch written by createEmptyShard. -/
def emptyShardBranch : RepositoryBranch :=
  { Name := "HEAD", Version := "404aaaaaaaaaaaaaaaaaaaaaaaaaaaaaaaaaaaaa" }

/-- createEmptyShard: overwrite the branch list with the synthetic
HEAD branch; skip when Incremental and the build library reports the
on-disk shard current; otherwise construct a builder and finish it. -/
def createEmptyShard (env : IndexEnv) (args : IndexArgs) : Option String × List Effect :=
  let bo : BuildOptions :=
    { env.baseBuild with RepositoryDescription := { Branches := [emptyShardBranch] } }
  if args.Incremental && env.skipIndexing then
    (none, [])
  else
    match env.newBuilderErr with
    | some e => (some e, [.newBuilder])
    | none =>
      match env.finishErr with
      | some e => (some e, [.newBuilder])
      | none => (none, [.newBuilder, .writeShard bo.RepositoryDescription.Branches])

/-- The body of Server.Index before its deferred error handler:
empty branch list goes to createEmptyShard; with Incremental set the
build library classification is consulted (Equal gives noop, Meta tries
mergeMeta and falls back on failure, Corrupt falls through); every
fall-through runs the child indexer via gitIndex. -/
def indexBody (env : IndexEnv) (args : IndexArgs) : indexState × Option String × List Effect :=
  if args.Branches = [] then
    let r := createEmptyShard env args
    (.empty, r.1, r.2)
  else if args.Incremental then
    match env.incrementalState with
    | .equal => (.noop, none, [.consultState])
    | .metaOnly =>
      match env.mergeMetaErr with
      | none => (.successMeta, none, [.consultState, .callMergeMeta])
      | some _ => (.success, env.gitIndexErr, [.consultState, .callMergeMeta, .runIndexer])
    | .corrupt => (.success, env.gitIndexErr, [.consultState, .runIndexer])
    | .other => (.success, env.gitIndexErr, [.consultState, .runIndexer])
  else
    (.success, env.gitIndexErr, [.runIndexer])

/-- The result of Server.Index: final state, error, and effects. -/
structure IndexResult where
  state : indexState
  err : Option String
  effects : List Effect
deriving DecidableEq, Repr

/-- Server.Index including its deferred handler, which forces the
state to fail whenever the returned error is non-nil. -/
def Index (env : IndexEnv) (args : IndexArgs) : IndexResult :=
  match indexBody env args with
  | (st, none, effs) => { state := st, err := none, effects := effs }
  | (_, some msg, effs) => { state := .fail, err := some msg, effects := effs }

/-- indexBody never produces the fail state itself; fail only arises
from the deferred error handler. -/
theorem indexBody_ne_fail (env : IndexEnv) (args : IndexArgs) :
    (indexBody env args).1 ≠ indexState.fail := by
  unfold indexBody createEmptyShard
  rcases args with ⟨n, i, bs, d, p, inc, fl, dl⟩
  rcases bs with _ | ⟨b, bs⟩ <;>
    rcases inc with _ | _ <;>
    simp <;>
    rcases env.incrementalState with _ | _ | _ | _ <;>
    rcases env.mergeMetaErr with _ | e <;>
    rcases env.newBuilderErr with _ | e1 <;>
    rcases env.finishErr with _ | e2 <;>
    simp [emptyShardBranch]

/-- C1: with Incremental set and a non-empty branch list, Index follows
the build library classification: Equal yields noop with no child
indexer; Meta with a successful mergeMeta yields success_meta without
the child indexer; a failed mergeMeta or a Corrupt state falls through
to the full reindex via the run supervisor. -/
theorem index_incremental_classification (env : IndexEnv) (args : IndexArgs)
    (hinc : args.Incremental = true) (hb : args.Branches ≠ []) :
    (env.incrementalState = .equal →
      Index env args = { state := .noop, err := none, effects := [.consultState] }) ∧
    (env.incrementalState = .metaOnly → env.mergeMetaErr = none →
      (Index env args).state = .successMeta ∧
        Effect.runIndexer ∉ (Index env args).effects) ∧
    (env.incrementalState = .metaOnly → env.mergeMetaErr ≠ none →
      Effect.runIndexer ∈ (Index env args).effects) ∧
    (env.incrementalState = .corrupt →
      Effect.runIndexer ∈ (Index env args).effects) := by
  unfold Index indexBody
  simp only [hinc, hb, if_neg, if_pos, ite_true]
  rcases env.incrementalState with _ | _ | _ | _ <;>
    rcases hm : env.mergeMetaErr with _ | e <;>
    rcases env.gitIndexErr with _ | g <;>
    simp [hb]

/-- C1 witness at a concrete environment and argument set. -/
theorem index_incremental_classification_witness :
    let env : IndexEnv :=
      { baseBuild := ⟨⟨[]⟩⟩, skipIndexing := false, newBuilderErr := none,
        finishErr := none, incrementalState := .equal, mergeMetaErr := none,
        gitIndexErr := none }
    let args : IndexArgs :=
      { Name := "r", RepoID := 1, Branches := [⟨"HEAD", "a"⟩], IndexDir := "/idx",
        Parallelism := 4, Incremental := true, FileLimit := 1 <<< 20,
        DownloadLimitMBPS := "1000" }
    Index env args = { state := .noop, err := none, effects := [.consultState] } :=
  (index_incremental_classification _ _ rfl (by decide)).1 rfl

/-- C3: the state returned by Index is fail exactly when the returned
error is non-nil; a nil error never yields fail. -/
theorem index_fail_iff_error (env : IndexEnv) (args : IndexArgs) :
    (Index env args).state = indexState.fail ↔ (Index env args).err ≠ none := by
  unfold Index
  rcases h : indexBody env args with ⟨st, e, effs⟩
  rcases e with _ | msg
  · have := indexBody_ne_fail env args
    rw [h] at this
    simpa using this
  · simp

/-- C5: with an empty branch list, Index returns state empty when no
error occurs, any shard written carries exactly the single synthetic
branch HEAD at version 404aaaa..., and neither the incremental
classification nor the child indexer is consulted. -/
theorem index_empty_branches (env : IndexEnv) (args : IndexArgs)
    (hb : args.Branches = []) :
    ((Index env args).err = none → (Index env args).state = indexState.empty) ∧
    (∀ bs, Effect.writeShard bs ∈ (Index env args).effects →
      bs = [{ Name := "HEAD", Version := "404aaaaaaaaaaaaaaaaaaaaaaaaaaaaaaaaaaaaa" }]) ∧
    Effect.consultState ∉ (Index env args).effects ∧
    Effect.runIndexer ∉ (Index env args).effects := by
  unfold Index indexBody createEmptyShard
  simp only [hb, ite_true, if_pos]
  rcases args.Incremental with _ | _ <;>
    rcases env.skipIndexing with _ | _ <;>
    rcases env.newBuilderErr with _ | e1 <;>
    rcases env.finishErr with _ | e2 <;>
    simp [emptyShardBranch]

/-- C5 witness at a concrete environment and argument set. -/
theorem index_empty_branches_witness :
    let env : IndexEnv :=
      { baseBuild := ⟨⟨[]⟩⟩, skipIndexing := false, newBuilderErr := none,
        finishErr := none, incrementalState := .other, mergeMetaErr := none,
        gitIndexErr := none }
    let args : IndexArgs :=
      { Name := "r", RepoID := 1, Branches := [], IndexDir := "/idx",
        Parallelism := 4, Incremental := true, FileLimit := 1 <<< 20,
        DownloadLimitMBPS := "1000" }
    ((Index env args).err = none → (Index env args).state = indexState.empty) ∧
    (∀ bs, Effect.writeShard bs ∈ (Index env args).effects →
      bs = [{ Name := "HEAD", Version := "404aaaaaaaaaaaaaaaaaaaaaaaaaaaaaaaaaaaaa" }]) ∧
    Effect.consultState ∉ (Index env args).effects ∧
    Effect.runIndexer ∉ (Index env args).effects :=
  index_empty_branches _ _ rfl

/-- C10: when Incremental is set and the build library's incremental
skip check holds, createEmptyShard returns nil with no effects (no
builder constructed, no shard written), so the repeated empty-branch
reindexes triggered by sync Bumps leave the index directory unchanged. -/
theorem createEmptyShard_skip_noop (env : IndexEnv) (args : IndexArgs)
    (hinc : args.Incremental = true) (hskip : env.skipIndexing = true) :
    createEmptyShard env args = (none, []) ∧
    (args.Branches = [] →
      Index env args = { state := .empty, err := none, effects := [] }) := by
  constructor
  · unfold createEmptyShard
    simp [hinc, hskip]
  · intro hb
    unfold Index indexBody createEmptyShard
    simp [hb, hinc, hskip]

/-- C10 witness at a concrete environment and argument set. -/
theorem createEmptyShard_skip_noop_witness :
    let env : IndexEnv :=
      { baseBuild := ⟨⟨[]⟩⟩, skipIndexing := true, newBuilderErr := none,
        finishErr := none, incrementalState := .other, mergeMetaErr := none,
        gitIndexErr := none }
    let args : IndexArgs :=
      { Name := "r", RepoID := 1, Branches := [], IndexDir := "/idx",
        Parallelism := 4, Incremental := true, FileLimit := 1 <<< 20,
        DownloadLimitMBPS := "1000" }
    createEmptyShard env args = (none, []) ∧
    (args.Branches = [] →
      Index env args = { state := .empty, err := none, effects := [] }) :=
  createEmptyShard_skip_noop _ _ rfl rfl

/-! ### Run supervisor: the no-output watchdog in Server.loggedRun -/

/-- noOutputTimeout in nanoseconds: 30 * time.Minute. -/
def noOutputTimeout : Nat := 30 * 60 * 1000000000

/-- The delay of the kill timer armed after the quit signal:
10 * time.Second, in nanoseconds. -/
def killAfterNs : Nat := 10 * 1000000000

/-- The two process signals loggedRun can send to the child. -/
inductive ProcSignal where
  | sigquit
  | sigkill
deriving DecidableEq, Repr

/-- Events delivered to the select loop of loggedRun: the periodic
no-output timer firing with the buffer length at that instant, the kill
timer firing, and the child exiting with its wait result. -/
inductive WatchEvent where
  | sample (bufLen : Nat)
  | killFire
  | childExit (err : Option String)
deriving DecidableEq, Repr

/-- State of the loggedRun select loop: the buffer-length high-water
mark, the pending kill timer (duration it was armed with, none while
unarmed), and the signals sent so far. -/
structure WatchState where
  lastLen : Nat
  killTimer : Option Nat
  signals : List ProcSignal
deriving DecidableEq, Repr

/-- The state on entry to the loop: lastLen is 0 and the kill channel
is a never-firing fresh channel. -/
def initWatch : WatchState := { lastLen := 0, killTimer := none, signals := [] }

/-- One iteration of loggedRun's select on a non-exit event. A sample
whose length differs from the high-water mark only updates the mark; an
unchanged length sends SIGQUIT and arms the 10 second kill timer; the
kill timer firing sends the unconditional kill. The kill channel never
fires while unarmed, and a fired one-shot timer is consumed. -/
def watchStep (st : WatchState) (e : WatchEvent) : WatchState :=
  match e with
  | .sample n =>
    if n ≠ st.lastLen then
      { st with lastLen := n }
    else
      { st with killTimer := some killAfterNs, signals := st.signals ++ [.sigquit] }
  | .killFire =>
    match st.killTimer with
    | some _ => { st with killTimer := none, signals := st.signals ++ [.sigkill] }
    | none => st
  | .childExit _ => st

/-- loggedRun's loop over a sequence of delivered events: it folds
watchStep until the child exit event arrives and then returns the wait
result; none means the event sequence ended with the child running. -/
def loggedRun (events : List WatchEvent) (st : WatchState) :
    WatchState × Option (Option String) :=
  match events with
  | [] => (st, none)
  | .childExit err :: _ => (st, some err)
  | e :: rest => loggedRun rest (watchStep st e)

/-- A buffer-length sequence in which every sample exceeds the running
high-water mark, starting from mark l. -/
def growingFrom (l : Nat) : List Nat → Bool
  | [] => true
  | n :: rest => decide (l < n) && growingFrom n rest

/-- While its samples keep growing, the loop sends no signal and keeps
the kill timer unarmed. -/
theorem loggedRun_growing_aux (err : Option String) (ls : List Nat)
    (st : WatchState) (h : growingFrom st.lastLen ls = true) :
    ∃ fin : WatchState,
      loggedRun (ls.map WatchEvent.sample ++ [WatchEvent.childExit err]) st =
        (fin, some err) ∧
      fin.signals = st.signals ∧ fin.killTimer = st.killTimer := by
  induction ls generalizing st with
  | nil => exact ⟨st, rfl, rfl, rfl⟩
  | cons n rest ih =>
    simp only [growingFrom, Bool.and_eq_true, decide_eq_true_eq] at h
    have hne : n ≠ st.lastLen := Nat.ne_of_gt h.1
    have hstep : watchStep st (.sample n) = { st with lastLen := n } := by
      simp [watchStep, hne]
    have h2 : growingFrom ({ st with lastLen := n } : WatchState).lastLen rest = true := h.2
    obtain ⟨fin, hrun, hsig, hkt⟩ := ih { st with lastLen := n } h2
    refine ⟨fin, ?_, hsig, hkt⟩
    simpa [loggedRun, hstep] using hrun

/-- C2: (a) a sample equal to the high-water mark sends SIGQUIT and
arms the 10 second kill timer, and the sampling window noOutputTimeout
is 30 minutes; (b) the armed kill timer firing before child exit sends
the unconditional kill; (c) a child whose buffer grows at every sample
receives no signal and the loop returns its wait result. -/
theorem loggedRun_watchdog (st : WatchState) (n : Nat) :
    (noOutputTimeout = 1800 * 1000000000) ∧
    (n = st.lastLen →
      watchStep st (.sample n) =
        { st with killTimer := some (10 * 1000000000),
                  signals := st.signals ++ [.sigquit] }) ∧
    (st.killTimer.isSome = true →
      (watchStep st .killFire).signals = st.signals ++ [.sigkill]) ∧
    (∀ err : Option String, ∀ ls : List Nat, growingFrom 0 ls = true →
      ∃ fin : WatchState,
        loggedRun (ls.map WatchEvent.sample ++ [WatchEvent.childExit err]) initWatch =
          (fin, some err) ∧ fin.signals = []) := by
    refine ⟨by norm_num [noOutputTimeout], ?_, ?_, ?_⟩
    · intro h
      simp [watchStep, h, killAfterNs]
    · intro h
      rcases hk : st.killTimer with _ | d
      · rw [hk] at h
        simp at h
      · simp [watchStep, hk]
    · intro err ls h
      obtain ⟨fin, hrun, hsig, _⟩ := loggedRun_growing_aux err ls initWatch h
      exact ⟨fin, hrun, hsig⟩

/-- C2 witness: a concrete run with two growing samples ends with the
child's result and no signal sent, and the other conjuncts evaluated at
a concrete state. -/
theorem loggedRun_watchdog_witness :
    ((3 : Nat) = ({ lastLen := 3, killTimer := none, signals := [] } : WatchState).lastLen) ∧
    growingFrom 0 [5, 9] = true ∧
    (∃ fin : WatchState,
      loggedRun ([5, 9].map WatchEvent.sample ++ [WatchEvent.childExit none]) initWatch =
        (fin, some none) ∧ fin.signals = []) := by
  refine ⟨rfl, by decide, ?_⟩
  exact (loggedRun_watchdog { lastLen := 3, killTimer := none, signals := [] } 3).2.2.2
    none [5, 9] (by decide)

/-! ### jitterTicker -/

/-- The sleep between ticks in jitterTicker: ns/2 + jitter, where ns is
the interval in nanoseconds and jitter is drawn by rand.Int63n(ns) from
the half-open range 0 up to ns. -/
def jitterSleep (d j : Nat) : Nat := d / 2 + j

/-- Actions of the jitterTicker goroutine: deliver a tick or sleep. -/
inductive TickAction where
  | tick
  | sleep (ns : Nat)
deriving DecidableEq, Repr

/-- The trace of the ticker goroutine driven by a list of jitter draws:
it delivers a tick first, then sleeps jitterSleep for each draw before
the next tick. -/
def tickerTrace (d : Nat) : List Nat → List TickAction
  | [] => [.tick]
  | j :: js => .tick :: .sleep (jitterSleep d j) :: tickerTrace d js

/-- The trace of the signal goroutine: one extra tick per delivered
registered signal. -/
def signalTicks (delivered : Nat) : List TickAction :=
  List.replicate delivered .tick

/-- C7 counterexample: with d = 2 and the valid jitter draw 0, the
inter-tick interval is exactly d/2, which the open range (d/2, d + d/2)
asserted by the claim excludes. -/
theorem jitterSleep_cex :
    (0 : Nat) < 2 ∧ (0 : Nat) < 2 ∧ jitterSleep 2 0 = 2 / 2 ∧
      ¬ (2 / 2 < jitterSleep 2 0) := by
  decide

/-- C7 amended: the ticker ticks first on creation; every inter-tick
sleep equals d/2 + j for a jitter draw j in the half-open range 0 up to
d, hence lies in the half-open range from d/2 inclusive to d + d/2
exclusive; each delivered registered signal forces one extra tick. -/
theorem jitterTicker_spec (d : Nat) (js : List Nat)
    (hd : 0 < d) (hjs : ∀ j ∈ js, j < d) :
    (tickerTrace d js).head? = some .tick ∧
    (∀ ns, TickAction.sleep ns ∈ tickerTrace d js →
      (∃ j ∈ js, ns = jitterSleep d j) ∧ d / 2 ≤ ns ∧ ns < d + d / 2) ∧
    (∀ k, signalTicks k = List.replicate k .tick) := by
  refine ⟨?_, ?_, fun k => rfl⟩
  · cases js <;> rfl
  · intro ns hmem
    induction js with
    | nil => simp [tickerTrace] at hmem
    | cons j rest ih =>
      simp only [tickerTrace, List.mem_cons] at hmem
      rcases hmem with h | h | h
      · exact absurd h (by simp)
      · have hj : j < d := hjs j (List.mem_cons_self j rest)
        have hns : ns = jitterSleep d j := by
          simpa using h
        subst hns
        refine ⟨⟨j, List.mem_cons_self j rest, rfl⟩, Nat.le_add_right _ _, ?_⟩
        calc d / 2 + j < d / 2 + d := by omega
        _ = d + d / 2 := by omega
      · have hjs2 : ∀ x ∈ rest, x < d := fun x hx => hjs x (List.mem_cons_of_mem j hx)
        obtain ⟨⟨j2, hj2, hey⟩, hlo, hhi⟩ := ih hjs2 h
        exact ⟨⟨j2, List.mem_cons_of_mem j hj2, hey⟩, hlo, hhi⟩

/-- C7 amended witness at d = 4 with jitter draws 0 and 3. -/
theorem jitterTicker_spec_witness :
    (0 : Nat) < 4 ∧ (∀ j ∈ [0, 3], j < 4) ∧
    ((tickerTrace 4 [0, 3]).head? = some .tick ∧
      (∀ ns, TickAction.sleep ns ∈ tickerTrace 4 [0, 3] →
        (∃ j ∈ [0, 3], ns = jitterSleep 4 j) ∧ 4 / 2 ≤ ns ∧ ns < 4 + 4 / 2) ∧
      (∀ k, signalTicks k = List.replicate k .tick)) :=
  ⟨by decide, by decide, jitterTicker_spec 4 [0, 3] (by decide) (by decide)⟩

/-! ### Server.Run: PAUSE handling in the sync tick and worker loop -/

/-- unicode.IsSpace on the characters Go treats as white space in
Latin-1: space, tab, newline, vertical tab, form feed, carriage
return, NEL and NBSP. -/
def isSpaceChar (c : Char) : Bool :=
  c = ' ' || c = '\t' || c = '\n' || c = '\x0b' || c = '\x0c' || c = '\r' ||
    c = '\x85' || c = '\xa0'

/-- bytes.TrimSpace: drop white space from both ends. -/
def trimSpace (s : String) : String :=
  ⟨((s.data.dropWhile isSpaceChar).reverse.dropWhile isSpaceChar).reverse⟩

/-- The steps a single sync tick can perform, in order. -/
inductive SyncStep where
  | logPause (contents : String)
  | listUpstream
  | logListError (e : String)
  | removeMissing (ids : List Nat)
  | cleanupRun
  | addOrUpdateChanged
  | bump (ids : List Nat)
  | forceIterate (missing : List Nat)
  | setCompoundCounter
deriving DecidableEq, Repr

/-- Environment of one sync tick: the PAUSE file contents when the
file exists, the upstream List result, and the ids Bump reports
missing. -/
structure SyncEnv where
  pauseFile : Option String
  listResult : Except String (List Nat)
  bumpMissing : List Nat

/-- One iteration of the sync goroutine body in Server.Run: when PAUSE
exists its trimmed contents are logged and the tick ends; otherwise the
upstream list is fetched (an error only logs), then MaybeRemoveMissing,
background cleanup, AddOrUpdate over changed options, Bump,
ForceIterateIndexOptions for the missing ids, and the compound shard
counter update run in order. -/
def syncTickSteps (env : SyncEnv) : List SyncStep :=
  match env.pauseFile with
  | some b => [.logPause (trimSpace b)]
  | none =>
    .listUpstream ::
      match env.listResult with
      | .error e => [.logListError e]
      | .ok ids =>
        [.removeMissing ids, .cleanupRun, .addOrUpdateChanged, .bump ids,
          .forceIterate env.bumpMissing, .setCompoundCounter]

/-- The steps one iteration of the worker loop can perform. -/
inductive WorkerStep where
  | sleepOneSecond
  | popQueue
  | indexRun
  | setIndexed
deriving DecidableEq, Repr

/-- One iteration of the worker loop in Server.Run: when PAUSE exists
it sleeps one second without touching the queue; otherwise it pops, and
with an item runs Index and records the state. -/
def workerIterationSteps (pauseFile : Option String) (queueHasItem : Bool) :
    List WorkerStep :=
  if pauseFile.isSome then
    [.sleepOneSecond]
  else if queueHasItem then
    [.popQueue, .indexRun, .setIndexed]
  else
    [.popQueue, .sleepOneSecond]

/-- C4: while PAUSE exists a sync tick only logs its contents and the
worker iteration only sleeps one second without popping; once the file
is absent the sync tick starts with the upstream list and the worker
iteration pops the queue. -/
theorem pause_file_pauses_loops (env : SyncEnv) (q : Bool) :
    (∀ b, env.pauseFile = some b →
      syncTickSteps env = [.logPause (trimSpace b)] ∧
      workerIterationSteps env.pauseFile q = [.sleepOneSecond]) ∧
    (env.pauseFile = none →
      (syncTickSteps env).head? = some .listUpstream ∧
      WorkerStep.popQueue ∈ workerIterationSteps env.pauseFile q) := by
  constructor
  · intro b hb
    constructor
    · simp [syncTickSteps, hb]
    · simp [workerIterationSteps, hb]
  · intro hb
    constructor
    · simp only [syncTickSteps, hb]
      rcases env.listResult with e | ids <;> rfl
    · rcases q with _ | _ <;> simp [workerIterationSteps, hb]

/-- C4 witness: a paused tick with contents "maintenance" and an
unpaused tick, both at concrete environments. -/
theorem pause_file_pauses_loops_witness :
    (syncTickSteps { pauseFile := some "maintenance", listResult := .ok [1],
                     bumpMissing := [] } = [.logPause "maintenance"] ∧
      workerIterationSteps (some "maintenance") true = [.sleepOneSecond]) ∧
    ((syncTickSteps { pauseFile := none, listResult := .ok [1],
                      bumpMissing := [] }).head? = some .listUpstream ∧
      WorkerStep.popQueue ∈ workerIterationSteps none true) := by
  constructor
  · exact (pause_file_pauses_loops
      { pauseFile := some "maintenance", listResult := .ok [1], bumpMissing := [] }
      true).1 "maintenance" rfl
  · exact (pause_file_pauses_loops
      { pauseFile := none, listResult := .ok [1], bumpMissing := [] } true).2 rfl

/-! ### Admin surface: Server.ForceIndex and Server.ServeHTTP -/

/-- One element of the slice returned by Sourcegraph.GetIndexOptions:
the options plus an optional per-repo error string. -/
structure OptionsResult where
  Options : IndexOptions
  Error : String
deriving DecidableEq, Repr

/-- Environment of the admin surface: the upstream GetIndexOptions
call, the Index environment, server fields, and the display function
IndexArgs.String defined outside this package slice. -/
structure ServerEnv where
  getIndexOptions : Nat → Except String (List OptionsResult)
  indexEnv : IndexEnv
  indexDir : String
  cpuCountField : Nat
  argsString : IndexArgs → String

/-- Outcome of Server.ForceIndex: either the runtime panic of the
unguarded element-0 access, or the message, error and the IndexArgs
value handed to Index (none when Index was never reached). -/
inductive ForceOutcome where
  | panicOOB
  | done (msg : String) (err : Option String) (argsUsed : Option IndexArgs)
deriving DecidableEq, Repr

/-- Server.ForceIndex: fetch fresh options for the id, report upstream
and per-repo errors, otherwise build IndexArgs, force Incremental off,
run Index, and describe the result. The element-0 access of the
returned slice is guarded only by the error being nil. -/
def ForceIndex (env : ServerEnv) (id : Nat) : ForceOutcome :=
  match env.getIndexOptions id with
  | .error e => .done ("Indexing " ++ toString id ++ " failed: " ++ e) (some e) none
  | .ok opts =>
    match opts.head? with
    | none => .panicOOB
    | some o0 =>
      if o0.Error ≠ "" then
        .done ("Indexing " ++ toString id ++ " failed: " ++ o0.Error)
          (some o0.Error) none
      else
        let args0 := Server.indexArgs env.indexDir env.cpuCountField o0.Options
        let args := { args0 with Incremental := false }
        let r := Index env.indexEnv args
        match r.err with
        | some e =>
          .done ("Indexing " ++ env.argsString args ++ " failed: " ++ e)
            (some e) (some args)
        | none =>
          .done ("Indexed " ++ env.argsString args ++ " with state " ++ r.state.toStr)
            none (some args)

/-- r.Form.Get: the first value bound to the key, or the empty
string. -/
def formGet (form : List (String × String)) (k : String) : String :=
  match form.find? (fun p => p.1 = k) with
  | some p => p.2
  | none => ""

/-- Decimal digit accumulator for atoi. -/
def parseDigits (acc : Nat) : List Char → Option Nat
  | [] => some acc
  | c :: rest => if c.isDigit then parseDigits (acc * 10 + (c.toNat - 48)) rest else none

/-- strconv.Atoi: an optional sign followed by at least one decimal
digit; anything else is a syntax error. -/
def atoi (s : String) : Option Int :=
  match s.data with
  | [] => none
  | '+' :: rest =>
    match rest with
    | [] => none
    | _ => (parseDigits 0 rest).map Int.ofNat
  | '-' :: rest =>
    match rest with
    | [] => none
    | _ => (parseDigits 0 rest).map (fun n => -(n : Int))
  | l => (parseDigits 0 l).map Int.ofNat

/-- uint32(id) for the int produced by strconv.Atoi. -/
def toUint32 (id : Int) : Nat := (id.emod (2 ^ 32)).toNat

/-- The POST branch of Server.ServeHTTP: parse the repo form field as
an integer; a parse failure stores the parse error as the message, and
otherwise the message is whatever ForceIndex returns; the ForceIndex
panic escapes the handler (modelled as none). -/
def ServeHTTPPost (env : ServerEnv) (form : List (String × String)) : Option String :=
  match atoi (formGet form "repo") with
  | none =>
    some ("strconv.Atoi: parsing \"" ++ formGet form "repo" ++ "\": invalid syntax")
  | some id =>
    match ForceIndex env (toUint32 id) with
    | .panicOOB => none
    | .done msg _ _ => some msg

/-- C6: a POST whose repo field parses as an integer makes the handler
fetch fresh IndexOptions for that id; the IndexArgs handed to Index has
Incremental forced off; and when Index succeeds the stored message is
Indexed followed by the args display and the state name. -/
theorem forceIndex_post (env : ServerEnv) (form : List (String × String))
    (id : Int) (o0 : OptionsResult) (rest : List OptionsResult)
    (hform : atoi (formGet form "repo") = some id)
    (hopts : env.getIndexOptions (toUint32 id) = .ok (o0 :: rest))
    (herr : o0.Error = "")
    (hok : (Index env.indexEnv
      { Server.indexArgs env.indexDir env.cpuCountField o0.Options with
          Incremental := false }).err = none) :
    ∃ args : IndexArgs,
      args.Incremental = false ∧
      ForceIndex env (toUint32 id) =
        .done ("Indexed " ++ env.argsString args ++ " with state " ++
          (Index env.indexEnv args).state.toStr) none (some args) ∧
      ServeHTTPPost env form =
        some ("Indexed " ++ env.argsString args ++ " with state " ++
          (Index env.indexEnv args).state.toStr) := by
  have hFI : ForceIndex env (toUint32 id) =
      .done ("Indexed " ++
          env.argsString
            { Server.indexArgs env.indexDir env.cpuCountField o0.Options with
                Incremental := false } ++ " with state " ++
          (Index env.indexEnv
            { Server.indexArgs env.indexDir env.cpuCountField o0.Options with
                Incremental := false }).state.toStr) none
        (some { Server.indexArgs env.indexDir env.cpuCountField o0.Options with
                  Incremental := false }) := by
    unfold ForceIndex
    rw [hopts]
    simp only [List.head?_cons, herr]
    simp only [ne_eq, not_true_eq_false, if_neg, ite_false, not_false_eq_true]
    rw [hok]
  refine ⟨{ Server.indexArgs env.indexDir env.cpuCountField o0.Options with
              Incremental := false }, rfl, hFI, ?_⟩
  unfold ServeHTTPPost
  rw [hform]
  simp only [hFI]

/-- C6 witness at a concrete environment, form and options result. -/
theorem forceIndex_post_witness :
    let env : ServerEnv :=
      { getIndexOptions := fun _ =>
          .ok [{ Options := { RepoID := 7, Name := "r7", Branches := [⟨"HEAD", "a"⟩] },
                 Error := "" }]
        indexEnv :=
          { baseBuild := ⟨⟨[]⟩⟩, skipIndexing := false, newBuilderErr := none,
            finishErr := none, incrementalState := .equal, mergeMetaErr := none,
            gitIndexErr := none }
        indexDir := "/idx"
        cpuCountField := 2
        argsString := fun a => a.Name }
    ∃ args : IndexArgs,
      args.Incremental = false ∧
      ForceIndex env (toUint32 7) =
        .done ("Indexed " ++ env.argsString args ++ " with state " ++
          (Index env.indexEnv args).state.toStr) none (some args) ∧
      ServeHTTPPost env [("repo", "7")] =
        some ("Indexed " ++ env.argsString args ++ " with state " ++
          (Index env.indexEnv args).state.toStr) :=
  forceIndex_post _ [("repo", "7")] 7
    { Options := { RepoID := 7, Name := "r7", Branches := [⟨"HEAD", "a"⟩] }, Error := "" }
    [] (by decide) rfl rfl rfl

/-- C9: when upstream returns an empty slice together with a nil
error, the error guard in ForceIndex does not prevent the element-0
access, which is out of bounds. -/
theorem forceIndex_empty_slice_panics (env : ServerEnv) (id : Nat)
    (h : env.getIndexOptions id = .ok []) :
    ForceIndex env id = .panicOOB := by
  unfold ForceIndex
  rw [h]
  rfl

/-- C9 witness: a concrete environment whose upstream returns an empty
slice with nil error makes ForceIndex reach the out-of-bounds access. -/
theorem forceIndex_empty_slice_panics_witness :
    ForceIndex
      { getIndexOptions := fun _ => .ok []
        indexEnv :=
          { baseBuild := ⟨⟨[]⟩⟩, skipIndexing := false, newBuilderErr := none,
            finishErr := none, incrementalState := .equal, mergeMetaErr := none,
            gitIndexErr := none }
        indexDir := "/idx"
        cpuCountField := 2
        argsString := fun a => a.Name } 7 = .panicOOB :=
  forceIndex_empty_slice_panics _ 7 rfl

/-! ### main: cpu_fraction validation and indexing parallelism -/

/-- math.Round: round half away from zero, on exact rationals. -/
def goRound (x : ℚ) : Int :=
  if x < 0 then -⌊-x + 1 / 2⌋ else ⌊x + 1 / 2⌋

/-- The cpuCount computation in main: round the product of the
effective GOMAXPROCS value with the fraction, clamped below by 1. -/
def mainCpuCount (gomaxprocs : Nat) (f : ℚ) : Int :=
  let c := goRound ((gomaxprocs : ℚ) * f)
  if c < 1 then 1 else c

/-- The startup contract of main around cpu_fraction: a fraction at
most 0 or above 1 aborts fatally (none); otherwise the parallelism is
mainCpuCount. -/
def mainStartup (gomaxprocs : Nat) (f : ℚ) : Option Int :=
  if f ≤ 0 || 1 < f then none else some (mainCpuCount gomaxprocs f)

/-- C8: startup aborts exactly when the cpu_fraction flag lies outside
the interval (0, 1], and otherwise sets the indexing parallelism to
round(availableCPUs * cpuFraction) clamped below by 1. -/
theorem main_cpu_fraction (gomaxprocs : Nat) (f : ℚ) :
    (mainStartup gomaxprocs f = none ↔ ¬(0 < f ∧ f ≤ 1)) ∧
    (0 < f → f ≤ 1 →
      mainStartup gomaxprocs f =
        some (max 1 (goRound ((gomaxprocs : ℚ) * f)))) := by
  constructor
  · unfold mainStartup
    constructor
    · intro h hcontra
      rw [if_neg] at h
      · exact Option.some_ne_none _ h
      · simp only [Bool.or_eq_true, decide_eq_true_eq, not_or]
        exact ⟨not_le.mpr hcontra.1, not_lt.mpr hcontra.2⟩
    · intro h
      have hb : (decide (f ≤ 0) || decide (1 < f)) = true := by
        rcases le_or_lt f 0 with hf | hf
        · simp [hf]
        · rcases le_or_lt f 1 with hf1 | hf1
          · exact absurd ⟨hf, hf1⟩ h
          · simp [hf1]
      rw [if_pos hb]
  · intro h0 h1
    unfold mainStartup mainCpuCount
    rw [if_neg]
    · congr 1
      rcases le_or_lt 1 (goRound ((gomaxprocs : ℚ) * f)) with hg | hg
      · rw [if_neg (not_lt.mpr hg), max_eq_right hg]
      · rw [if_pos hg, max_eq_left (le_of_lt hg)]
    · simp only [Bool.or_eq_true, decide_eq_true_eq, not_or]
      exact ⟨not_le.mpr h0, not_lt.mpr h1⟩

/-- C8 witness: with 10 effective CPUs and fraction 1/4, startup
accepts the flag and sets the parallelism to 3; the out-of-range
fraction 2 aborts. -/
theorem main_cpu_fraction_witness :
    (0 : ℚ) < 1 / 4 ∧ (1 : ℚ) / 4 ≤ 1 ∧
    mainStartup 10 (1 / 4) = some (max 1 (goRound ((10 : ℚ) * (1 / 4)))) ∧
    mainStartup 10 (1 / 4) = some 3 ∧
    mainStartup 10 2 = none := by
  have h0 : (0 : ℚ) < 1 / 4 := by norm_num
  have h1 : (1 : ℚ) / 4 ≤ 1 := by norm_num
  refine ⟨h0, h1, (main_cpu_fraction 10 (1 / 4)).2 h0 h1, ?_, ?_⟩
  · rw [(main_cpu_fraction 10 (1 / 4)).2 h0 h1]
    norm_num [goRound]
  · exact (main_cpu_fraction 10 2).1.mpr (by norm_num)

end Zoekt
